import Mathlib

/-!
Shallow embedding of the bighorn transport layer: the gateway `Socket`
(src/unnamed/part_009) and the REST rate-limit scheduler
(src/package/src/core/rest.ts), together with verified properties of the
embedded code.  Machine integers are modelled as `Nat`/`Int`; timestamps
(`Date.now()`) as `Nat` milliseconds; JS truthiness tests are modelled
explicitly where the source relies on them.
-/

namespace Bighorn

/-- readyState values of the underlying WebSocket object. -/
inductive WsReady where
  | connecting
  | opened
  | closing
  | closed
deriving DecidableEq, Repr

/-- The underlying socket object as observed by `Socket.destroy`. -/
structure WsConn where
  readyState : WsReady
deriving DecidableEq, Repr

/-- Structured log events emitted through the injected logger (`log.fail`,
`log.warn`, `log.echo`).  Debug-only `log.echo` traces that carry no
information used by any property are elided. -/
inductive LogEntry where
  | failMaxRetries
  | failStartError
  | warnListenerReplaced (event : String)
  | warnInvalidSession
deriving DecidableEq, Repr

/-- `SocketSettings` from src/unnamed/part_009 lines 23-34 (the
`sessionStore` callbacks are modelled by the `store` field of
`SocketState`: `none` = no store configured). -/
structure SocketSettings where
  token : String
  intents : Nat
  maxRetries : Option Nat
  debug : Bool
  warns : Bool
deriving DecidableEq, Repr

/-- Mutable fields of the `Socket` class (src/unnamed/part_009 lines 46-62)
plus the externally persisted session (`store`): `store = none` means no
sessionStore was configured, `store = some c` means a store holding
content `c`. -/
structure SocketState where
  settings : SocketSettings
  lastPing : Nat
  lastACK : Nat
  heartbeat : Bool
  sessionId : Option String
  lastSequence : Option Int
  reconnecting : Bool
  retries : Nat
  events : List (String × Nat)
  ws : Option WsConn
  store : Option (Option (String × Int))
  logs : List LogEntry
deriving DecidableEq, Repr

/-- JS truthiness of a nullable string field (`if (this._sessionId)`):
null and the empty string are falsy. -/
def truthyStr : Option String → Bool
  | none => false
  | some s => decide (s ≠ "")

/-- JS truthiness of a nullable sequence number (`if (s)`): null and 0 are
falsy. -/
def truthySeq : Option Int → Bool
  | none => false
  | some v => decide (v ≠ 0)

/-- Possible outcomes of the promise returned by `Socket.destroy`. -/
inductive DestroyResult where
  | resolvedTrue
  | resolvedFalse
  | rejected
  | neverSettles
deriving DecidableEq, Repr

/-- Settlement of the promise returned by `Socket.destroy`
(src/unnamed/part_009 lines 82-115).  The whole body is wrapped in
try/catch returning `false` from the catch (`cleanupThrows` models an
exception raised inside the try block).  With no socket the body returns
`true` at once.  With a socket, `destroy` installs its own `onclose`
resolver and awaits it; for a CONNECTING/OPEN socket it calls
`ws.close(1000, ...)` so the close event eventually fires, and for a
CLOSING socket the close event is already on its way — in both cases the
await completes and the body returns `true`.  For a socket whose
readyState is already CLOSED, `close()` is not called and the close event
has already fired on the old handler, so `await closing` never resumes
and the promise never settles. -/
def destroyResult (st : SocketState) (cleanupThrows : Bool) : DestroyResult :=
  if cleanupThrows then .resolvedFalse
  else
    match st.ws with
    | none => .resolvedTrue
    | some w =>
      match w.readyState with
      | .closed => .neverSettles
      | _ => .resolvedTrue

/-- Synchronous state effect of `Socket.destroy` (lines 84-104): the
heartbeat interval is cleared and `_ws` is set to null (both happen before
`await closing`). -/
def destroyState (st : SocketState) : SocketState :=
  { st with heartbeat := false, ws := none }

/-- Outcomes of a call to `Socket.reconnect`. -/
inductive ReconnectOutcome where
  | alreadyReconnecting
  | gaveUp
  | scheduled (backoffMs : Nat)
  | hangsInDestroy
deriving DecidableEq, Repr

/-- The value the `reconnect()` promise settles with before any timer runs:
`some false` for the two immediate-return paths, `none` when settlement is
deferred behind the backoff timer (or never happens). -/
def immediateReturn : ReconnectOutcome → Option Bool
  | .alreadyReconnecting => some false
  | .gaveUp => some false
  | _ => none

/-- The `clear` branch of `Socket.reconnect` (lines 140-145): in-memory
session fields are nulled and the persisted session is cleared when a
store is configured. -/
def clearSession (st : SocketState) : SocketState :=
  { st with sessionId := none, lastSequence := none,
            store := st.store.map fun _ => none }

/-- `Socket.reconnect` up to (and excluding) the backoff timer callback
(src/unnamed/part_009 lines 134-172).  Guarded by `_reconnecting`;
destroys the current connection; optionally clears the session; reads
`_retries` then increments it; gives up past `maxRetries ?? 5` (logging a
fatal condition and clearing the persisted session); otherwise schedules
`start()` after `min(2 ** retries * 1000, 30000)` ms. -/
def reconnectCall (st : SocketState) (clear : Bool) : SocketState × ReconnectOutcome :=
  if st.reconnecting then (st, .alreadyReconnecting)
  else
    let stR := { st with reconnecting := true }
    let st1 := destroyState stR
    if destroyResult stR false = .neverSettles then (st1, .hangsInDestroy)
    else
      let st2 := if clear then clearSession st1 else st1
      let r := st2.retries
      let st3 := { st2 with retries := r + 1 }
      if st3.settings.maxRetries.getD 5 ≤ r then
        ({ st3 with store := st3.store.map fun _ => none, reconnecting := false,
                    logs := .failMaxRetries :: st3.logs }, .gaveUp)
      else
        (st3, .scheduled (min (2 ^ r * 1000) 30000))

/-- Settlement of the reconnect promise by the backoff timer body. -/
inductive SettleResult where
  | resolvedTrue
  | rejectedFalse
deriving DecidableEq, Repr

/-- Body of the backoff `setTimeout` inside `Socket.reconnect`
(lines 160-171): on `start()` success the retry counter resets to 0 and
the promise resolves `true`; on failure the error is logged and the
promise is rejected. -/
def reconnectComplete (st : SocketState) (startOk : Bool) : SocketState × SettleResult :=
  if startOk then ({ st with retries := 0, reconnecting := false }, .resolvedTrue)
  else ({ st with reconnecting := false, logs := .failStartError :: st.logs }, .rejectedFalse)

/-- Control actions the InvalidSession branch can take. -/
inductive GatewayAction where
  | sendResume (token : String) (sessionId : String) (seq : Int)
  | reconnectClear
deriving DecidableEq, Repr

/-- The `InvalidSession` case of `Socket._handleMessage`
(src/unnamed/part_009 lines 292-310): when the payload `d` is truthy AND
`_sessionId` is truthy AND `_lastSequence !== null`, a Resume frame with
the credential, session id and last sequence is sent; otherwise
`reconnect(true)` runs. -/
def handleInvalidSession (st : SocketState) (d : Bool) : SocketState × GatewayAction :=
  let st0 := if st.settings.warns then { st with logs := .warnInvalidSession :: st.logs } else st
  if d && truthyStr st0.sessionId && st0.lastSequence.isSome then
    (st0, .sendResume st0.settings.token (st0.sessionId.getD "") (st0.lastSequence.getD 0))
  else
    ((reconnectCall st0 true).1, .reconnectClear)

/-- The sequenced-frame preamble of `Socket._handleMessage`
(src/unnamed/part_009 lines 242-250): `if (s)` — truthy, so null and 0 are
skipped — set `_lastSequence := s` and, when `_sessionId` is truthy,
write `{sessionId, seq}` through the configured session store. -/
def handleSequence (st : SocketState) (s : Option Int) : SocketState :=
  if truthySeq s then
    let st1 := { st with lastSequence := s }
    if truthyStr st1.sessionId then
      { st1 with store := st1.store.map fun _ => some (st1.sessionId.getD "", s.getD 0) }
    else st1
  else st

/-- `Map.get` over the event-handler map: handlers are identified by
opaque numeric ids. -/
def getHandler : List (String × Nat) → String → Option Nat
  | [], _ => none
  | (e, h) :: rest, e' => if e = e' then some h else getHandler rest e'

/-- `Map.set` over the event-handler map: replaces the entry for an
existing key, otherwise appends. -/
def setHandler : List (String × Nat) → String → Nat → List (String × Nat)
  | [], e, h => [(e, h)]
  | (e', h') :: rest, e, h =>
      if e' = e then (e, h) :: rest else (e', h') :: setHandler rest e h

/-- `Socket.listen` (src/unnamed/part_009 lines 121-128): when the event
already has a handler AND `settings.warns` is truthy, a replacement
warning is logged; in every case the map entry is overwritten with the
new handler. -/
def listen (st : SocketState) (event : String) (handler : Nat) : SocketState :=
  let st1 :=
    if (getHandler st.events event).isSome && st.settings.warns then
      { st with logs := .warnListenerReplaced event :: st.logs }
    else st
  { st1 with events := setHandler st1.events event handler }

/-- Handler lookup performed by the Dispatch case of
`Socket._handleMessage` (lines 320-328): the handler invoked for an event
is whatever the map currently holds for its name. -/
def dispatchHandler (st : SocketState) (t : String) : Option Nat :=
  getHandler st.events t

/-- Flags recording which callbacks attached to the socket object can
settle the promise returned by `Socket.start`. -/
structure WsHandlers where
  onopenResolvesStart : Bool
  onerrorRejectsStart : Bool
  oncloseSettlesStart : Bool
deriving DecidableEq, Repr

/-- Handlers as installed by `Socket.start` (src/unnamed/part_009 lines
201-220): `onopen` resolves the start promise, `onerror` rejects it, and
`onclose` merely logs a warning (it does not settle start). -/
def startHandlers : WsHandlers :=
  { onopenResolvesStart := true, onerrorRejectsStart := true, oncloseSettlesStart := false }

/-- Handler rewiring performed by `Socket.destroy` (lines 89-104):
`onclose` is repointed at destroy's own `closing` resolver (which settles
destroy, not start) and `onopen`/`onmessage`/`onerror` are set to null. -/
def destroyRewire (_h : WsHandlers) : WsHandlers :=
  { onopenResolvesStart := false, onerrorRejectsStart := false, oncloseSettlesStart := false }

/-- Events the socket object can subsequently deliver. -/
inductive WsEvent where
  | openEvt
  | errorEvt
  | closeEvt
deriving DecidableEq, Repr

/-- Whether delivering one socket event settles the pending start promise
under the given handler wiring. -/
def startSettledBy (h : WsHandlers) : WsEvent → Bool
  | .openEvt => h.onopenResolvesStart
  | .errorEvt => h.onerrorRejectsStart
  | .closeEvt => h.oncloseSettlesStart

/-- Whether any event in a delivered sequence settles the pending start
promise. -/
def startEverSettles (h : WsHandlers) (evs : List WsEvent) : Bool :=
  evs.any (startSettledBy h)

/-- Possible fates of the promise `Rest.request` hands to its caller. -/
inductive CallerResult where
  | resolvedData (body : String)
  | rejectedStatus (status : Nat) (body : String)
  | unsettled
deriving DecidableEq, Repr

/-- Result of the underlying `fetch` of one queued REST job. -/
inductive FetchOutcome where
  | response (ok : Bool) (status : Nat) (remaining : Int) (resetAt : Nat) (body : String)
  | transportError
deriving DecidableEq, Repr

/-- How the caller promise created by `Rest.request`
(src/package/src/core/rest.ts lines 139-165) settles for each fetch
outcome.  A response with `ok` resolves with the parsed body; a non-ok
response rejects with `{status, body}`.  When `fetch` itself rejects
(transport failure), the `await fetch` inside the queued job throws: the
executor's `reject` is never invoked on that path, so the caller promise
never settles (the job's own rejection is only observed by the `.finally`
that advances the bucket). -/
def requestSettle : FetchOutcome → CallerResult
  | .response true _ _ _ b => .resolvedData b
  | .response false status _ _ b => .rejectedStatus status b
  | .transportError => .unsettled

/-- Concrete socket state used to instantiate the reconnect theorems. -/
def stMaxed : SocketState :=
  { settings := { token := "t", intents := 0, maxRetries := none, debug := false, warns := false }
    lastPing := 0, lastACK := 0, heartbeat := true
    sessionId := some "sid", lastSequence := some 42
    reconnecting := false, retries := 5
    events := [], ws := none
    store := some (some ("sid", 42)), logs := [] }

/-- Concrete socket state with attempt counter 3 below the maximum. -/
def stRetry3 : SocketState :=
  { stMaxed with retries := 3 }

/-! ## C5: InvalidSession handling -/

/-- Concrete state holding a fully known session (used against C5). -/
def stSession : SocketState :=
  { settings := { token := "tok", intents := 0, maxRetries := none, debug := false, warns := false }
    lastPing := 0, lastACK := 0, heartbeat := true
    sessionId := some "abc", lastSequence := some 5
    reconnecting := false, retries := 0
    events := [], ws := none
    store := some (some ("abc", 5)), logs := [] }

/-- Concrete state with one registered handler and warnings disabled. -/
def stHandler : SocketState :=
  { stSession with events := [("MESSAGE_CREATE", 1)] }

/-- Concrete state with one registered handler and warnings enabled. -/
def stHandlerWarn : SocketState :=
  { stHandler with settings := { stHandler.settings with warns := true } }

/-! ## C10: destroy settlement -/

/-- Concrete state whose socket object is already CLOSED (for example the
server closed the connection; the Socket's own `onclose` handler only
logs, it does not null `_ws`). -/
def stClosedWs : SocketState :=
  { stSession with ws := some { readyState := WsReady.closed } }

/-! ## The REST request scheduler (src/package/src/core/rest.ts)

One `BucketInfo` per (method, route) key; buckets for distinct keys share
no state, so the model tracks the scheduler state of one fixed key.  Jobs
are identified by the order in which they were enqueued.  The JS event
loop is modelled as an interleaving of atomic steps: an `enqueue` call
(`Rest.queueRequest`), the continuation of a completed fetch
(`respondJob`: rate-limit headers are read and the bucket updated, the
caller promise settles), the job's `.finally` continuation
(`finalizeJob`: `runBucket` again), the firing of a deferred-retry
`setTimeout` (`fireTimer`), and the passage of time (`tickBy`). -/

/-- `BucketInfo` from rest.ts lines 16-21. `remaining` is an `Int`: the
code decrements it below zero while requests are in flight. -/
structure BucketInfo where
  resetAt : Nat
  remaining : Int
  queue : List Nat
  isRunning : Bool
deriving DecidableEq, Repr

/-- The bucket lazily created on first request (rest.ts lines 174-179):
`remaining` optimistically 1, `resetAt` 0, idle. -/
def freshBucket : BucketInfo :=
  { resetAt := 0, remaining := 1, queue := [], isRunning := false }

/-- Scheduler state for one bucket key.  `inFlight` holds jobs whose
`fn()` is executing; `pendingFin` holds jobs whose fetch continuation has
run but whose `.finally` has not; `timers` holds the firing times of
pending deferred-retry `setTimeout`s; `started`/`enqueued` record the
execution-start order and the enqueue order. -/
structure SchedState where
  bucket : Option BucketInfo
  now : Nat
  inFlight : List Nat
  pendingFin : List Nat
  timers : List Nat
  started : List Nat
  enqueued : List Nat
  nextId : Nat
deriving DecidableEq, Repr

/-- The scheduler before any request. -/
def initSched : SchedState :=
  { bucket := none, now := 0, inFlight := [], pendingFin := [], timers := []
    started := [], enqueued := [], nextId := 0 }

/-- `Rest.runBucket` (rest.ts lines 187-209): when `remaining <= 0` and
`Date.now() < resetAt`, schedule a deferred retry at `resetAt` and return;
otherwise pop the head job (marking the bucket idle and returning when
the queue is empty) and launch it, decrementing `remaining`. -/
def runBucket (s : SchedState) : SchedState :=
  match s.bucket with
  | none => s
  | some b =>
    if b.remaining ≤ 0 ∧ s.now < b.resetAt then
      { s with timers := s.timers ++ [b.resetAt] }
    else
      match b.queue with
      | [] => { s with bucket := some { b with isRunning := false } }
      | j :: rest =>
        { s with
          bucket := some { b with queue := rest, isRunning := true,
                                  remaining := b.remaining - 1 },
          inFlight := j :: s.inFlight,
          started := s.started ++ [j] }

/-- `Rest.queueRequest` (rest.ts lines 172-185): fetch or lazily create
the bucket, push the job, and call `runBucket` unless the bucket is
already running. -/
def queueRequest (s : SchedState) : SchedState :=
  let b0 := s.bucket.getD freshBucket
  let b1 := { b0 with queue := b0.queue ++ [s.nextId] }
  let s1 := { s with bucket := some b1,
                     enqueued := s.enqueued ++ [s.nextId],
                     nextId := s.nextId + 1 }
  if b1.isRunning then s1 else runBucket s1

/-- The continuation of job `j`'s completed fetch (rest.ts lines
141-163): the `X-RateLimit-Remaining` / `X-RateLimit-Reset` headers are
written into the bucket (when it exists) and the caller promise settles;
the job's `.finally` has not yet run. -/
def respondJob (s : SchedState) (j : Nat) (rem : Int) (rst : Nat) : SchedState :=
  let s1 := { s with inFlight := s.inFlight.erase j,
                     pendingFin := s.pendingFin ++ [j] }
  match s1.bucket with
  | none => s1
  | some b => { s1 with bucket := some { b with remaining := rem, resetAt := rst } }

/-- The `.finally` continuation of job `j` (rest.ts lines 206-208):
`runBucket` runs again. -/
def finalizeJob (s : SchedState) (j : Nat) : SchedState :=
  runBucket { s with pendingFin := s.pendingFin.erase j }

/-- A deferred-retry `setTimeout` scheduled for time `t` fires (rest.ts
line 193): `runBucket` runs again. -/
def fireTimer (s : SchedState) (t : Nat) : SchedState :=
  runBucket { s with timers := s.timers.erase t }

/-- Wall-clock time advances. -/
def tickBy (s : SchedState) (d : Nat) : SchedState :=
  { s with now := s.now + d }

/-- One atomic event-loop step of the scheduler.  A fetch continuation
requires its job to be in flight, a `.finally` requires its settle to
have happened, and a timer only fires at or after its scheduled time. -/
inductive Step : SchedState → SchedState → Prop where
  | enqueue (s : SchedState) : Step s (queueRequest s)
  | respond (s : SchedState) (j : Nat) (rem : Int) (rst : Nat)
      (hj : j ∈ s.inFlight) : Step s (respondJob s j rem rst)
  | finalize (s : SchedState) (j : Nat) (hj : j ∈ s.pendingFin) :
      Step s (finalizeJob s j)
  | timer (s : SchedState) (t : Nat) (ht : t ∈ s.timers) (hle : t ≤ s.now) :
      Step s (fireTimer s t)
  | tick (s : SchedState) (d : Nat) : Step s (tickBy s d)

/-- Finite interleavings of scheduler steps. -/
inductive Trail : SchedState → SchedState → Prop where
  | refl (s : SchedState) : Trail s s
  | snoc {s s' s'' : SchedState} (h : Trail s s') (hstep : Step s' s'') :
      Trail s s''

/-- States reachable from the pristine scheduler. -/
def Reach (s : SchedState) : Prop := Trail initSched s

/-- The bucket as `runBucket`'s callers see it (a missing bucket never
coexists with activity, see `Inv`). -/
def bkt (s : SchedState) : BucketInfo := s.bucket.getD freshBucket

/-- Number of concurrent activities of the bucket: jobs executing, jobs
awaiting their `.finally`, and pending deferred-retry timers. -/
def flightCount (s : SchedState) : Nat :=
  s.inFlight.length + s.pendingFin.length + s.timers.length

/-- Inductive invariant of the scheduler: the enqueue order is the
execution-start order followed by the waiting queue; at most one
activity exists at a time; `isRunning` tracks exactly whether some
activity exists; and an idle bucket is immediately runnable and has an
empty queue. -/
def Inv (s : SchedState) : Prop :=
  s.enqueued = s.started ++ (bkt s).queue ∧
  flightCount s ≤ 1 ∧
  ((bkt s).isRunning = true ↔ flightCount s ≠ 0) ∧
  ((bkt s).isRunning = false → 0 < (bkt s).remaining ∨ (bkt s).resetAt ≤ s.now) ∧
  ((bkt s).isRunning = false → (bkt s).queue = [])

/-- Concrete bucket used to instantiate the C2 theorem: the last response
reported `remaining = 0` with `resetAt = 5000`, one job still queued. -/
def bktGate : BucketInfo :=
  { resetAt := 5000, remaining := 0, queue := [7], isRunning := true }

/-- Concrete scheduler state right after that response settled job 9
(its `.finally` has not yet run). -/
def sGate : SchedState :=
  { bucket := some bktGate, now := 0, inFlight := [], pendingFin := [9]
    timers := [], started := [9], enqueued := [9, 7], nextId := 10 }

/-! ## Verified properties -/

/-! ## Helper lemmas -/

/-- `destroy` settles whenever no socket object with readyState CLOSED is
present. -/
theorem destroyResult_settles {st : SocketState}
    (h : ∀ w, st.ws = some w → w.readyState ≠ WsReady.closed) (b : Bool) :
    destroyResult st b ≠ .neverSettles := by
  unfold destroyResult
  cases b with
  | true => simp
  | false =>
    simp only [Bool.false_eq_true, if_false]
    cases hws : st.ws with
    | none => simp
    | some w =>
      have := h w hws
      cases hr : w.readyState <;> simp_all

/-! ## C3 / C4: reconnect give-up and backoff -/

/-- C3: when the in-flight guard is clear and the attempt counter has
reached the configured maximum (default 5), `reconnect` logs a fatal
condition, clears the persisted session, and returns `false` immediately
(outcome `gaveUp`, so no timer and no further automatic attempt is
scheduled); and the backoff timer body of any successful reconnect resets
the attempt counter to 0 and resolves `true`. -/
theorem c3_max_retries_gives_up (st : SocketState) (clear : Bool)
    (hrec : st.reconnecting = false)
    (hws : ∀ w, st.ws = some w → w.readyState ≠ WsReady.closed)
    (hmax : st.settings.maxRetries.getD 5 ≤ st.retries) :
    (reconnectCall st clear).2 = .gaveUp ∧
    immediateReturn (reconnectCall st clear).2 = some false ∧
    (reconnectCall st clear).1.store = st.store.map (fun _ => none) ∧
    LogEntry.failMaxRetries ∈ (reconnectCall st clear).1.logs ∧
    (∀ s : SocketState,
      (reconnectComplete s true).1.retries = 0 ∧
      (reconnectComplete s true).2 = .resolvedTrue) := by
  have hset : ∀ w, ({ st with reconnecting := true } : SocketState).ws = some w →
      w.readyState ≠ WsReady.closed := hws
  have hnot := destroyResult_settles hset false
  refine ⟨?_, ?_, ?_, ?_, fun s => by simp [reconnectComplete]⟩ <;>
    cases clear <;>
      simp [reconnectCall, destroyState, clearSession, immediateReturn, hrec, hnot, hmax]
  all_goals cases st.store
  all_goals simp

/-- Witness for C3 at a concrete state: 5 attempts against the default
maximum of 5 gives up, returns false, and clears the store. -/
theorem c3_max_retries_gives_up_witness :
    stMaxed.reconnecting = false ∧
    stMaxed.settings.maxRetries.getD 5 ≤ stMaxed.retries ∧
    (reconnectCall stMaxed true).2 = .gaveUp ∧
    immediateReturn (reconnectCall stMaxed true).2 = some false ∧
    (reconnectCall stMaxed true).1.store = stMaxed.store.map (fun _ => none) := by
  have h := c3_max_retries_gives_up stMaxed true rfl
    (by intro w hw; simp [stMaxed] at hw) (by simp [stMaxed])
  exact ⟨rfl, by simp [stMaxed], h.1, h.2.1, h.2.2.1⟩

/-- C4: a reconnect attempt with counter value `n` below the maximum
schedules `start()` after exactly `min(2 ^ n * 1000, 30000)` ms, and the
resulting delays for attempts 0..6 are 1000, 2000, 4000, 8000, 16000,
30000, 30000 ms. -/
theorem c4_backoff_formula (st : SocketState) (clear : Bool)
    (hrec : st.reconnecting = false)
    (hws : ∀ w, st.ws = some w → w.readyState ≠ WsReady.closed)
    (hlt : st.retries < st.settings.maxRetries.getD 5) :
    (reconnectCall st clear).2 = .scheduled (min (2 ^ st.retries * 1000) 30000) ∧
    (List.range 7).map (fun n => min (2 ^ n * 1000) 30000) =
      [1000, 2000, 4000, 8000, 16000, 30000, 30000] := by
  have hset : ∀ w, ({ st with reconnecting := true } : SocketState).ws = some w →
      w.readyState ≠ WsReady.closed := hws
  have hnot := destroyResult_settles hset false
  have hnle := Nat.not_le.mpr hlt
  constructor
  · cases clear <;>
      simp [reconnectCall, destroyState, clearSession, hrec, hnot, hnle]
  · decide

/-- Witness for C4: at attempt counter 3 the scheduled backoff is
8000 ms. -/
theorem c4_backoff_formula_witness :
    stRetry3.reconnecting = false ∧
    stRetry3.retries < stRetry3.settings.maxRetries.getD 5 ∧
    (reconnectCall stRetry3 false).2 = .scheduled 8000 := by
  have h := c4_backoff_formula stRetry3 false rfl
    (by intro w hw; simp [stRetry3, stMaxed] at hw) (by simp [stRetry3, stMaxed])
  refine ⟨rfl, by simp [stRetry3, stMaxed], ?_⟩
  simpa using h.1

/-- C5 counterexample: an InvalidSession frame whose `d` payload is falsy
(non-resumable) takes the reconnect branch even though both a session id
and a last sequence are known, so no Resume frame is sent. -/
theorem c5_counterexample :
    stSession.sessionId = some "abc" ∧
    stSession.lastSequence = some 5 ∧
    (handleInvalidSession stSession false).2 = .reconnectClear ∧
    GatewayAction.reconnectClear ≠ .sendResume "tok" "abc" 5 := by
  refine ⟨rfl, rfl, ?_, by simp⟩
  simp [handleInvalidSession, stSession, truthyStr]

/-- C5 amended: on InvalidSession, a Resume frame carrying exactly the
credential, the known session id and the known last sequence is sent only
when the frame's `d` payload is also truthy (the server marked the session
resumable); in every other case — including `d` falsy with a fully known
session — `reconnect(true)` is invoked, which (when it can run) clears
both the in-memory and the persisted session before the fresh
re-identify. -/
theorem c5_amended_resume_needs_resumable_flag (st : SocketState) (d : Bool) :
    (∀ sid q, d = true → st.sessionId = some sid → sid ≠ "" → st.lastSequence = some q →
      (handleInvalidSession st d).2 = .sendResume st.settings.token sid q) ∧
    ((d && truthyStr st.sessionId && st.lastSequence.isSome) = false →
      (handleInvalidSession st d).2 = .reconnectClear ∧
      (st.reconnecting = false →
        (∀ w, st.ws = some w → w.readyState ≠ WsReady.closed) →
        (handleInvalidSession st d).1.sessionId = none ∧
        (handleInvalidSession st d).1.lastSequence = none)) := by
  constructor
  · intro sid q hd hsid hne hq
    subst hd
    simp [handleInvalidSession, hsid, hq, truthyStr, hne]
    cases hw : st.settings.warns <;> simp [hsid, hq, truthyStr, hne]
  · intro hfail
    have hgoal : (handleInvalidSession st d).2 = .reconnectClear := by
      unfold handleInvalidSession
      cases hw : st.settings.warns <;> simp [hw, hfail]
    refine ⟨hgoal, fun hrec hws => ?_⟩
    have hnot := @destroyResult_settles
      { st with reconnecting := true } (by exact hws) false
    have hnot' := @destroyResult_settles
      { ({ st with logs := LogEntry.warnInvalidSession :: st.logs }) with
                reconnecting := true } (by exact hws) false
    unfold handleInvalidSession
    cases hw : st.settings.warns <;>
      simp [hw, hfail, reconnectCall, hrec, destroyState, clearSession, hnot, hnot'] <;>
      split <;> simp

/-- Witness for the amended C5: with `d` truthy and the session fully
known, the Resume frame carries the credential, session id and sequence. -/
theorem c5_amended_witness :
    stSession.sessionId = some "abc" ∧
    stSession.lastSequence = some 5 ∧
    (handleInvalidSession stSession true).2 = .sendResume "tok" "abc" 5 := by
  have h := (c5_amended_resume_needs_resumable_flag stSession true).1
    "abc" 5 rfl rfl (by simp) rfl
  exact ⟨rfl, rfl, h⟩

/-! ## C6: sequenced-frame write-through -/

/-- C6 counterexample: a frame carrying sequence number 0 is dropped by
the truthy test `if (s)`, so `lastSequence` keeps its old value and
nothing is persisted, although the claim requires the update on every
frame carrying a sequence number. -/
theorem c6_counterexample :
    stSession.lastSequence = some 5 ∧
    handleSequence stSession (some 0) = stSession ∧
    (handleSequence stSession (some 0)).lastSequence ≠ some 0 := by
  refine ⟨rfl, ?_, ?_⟩ <;> simp [handleSequence, truthySeq, stSession]

/-- C6 amended: for every received frame carrying a NONZERO sequence
number `v`, `lastSequence` is updated to `v`, and if a session id is set
(non-null and non-empty) the pair `{sessionId, lastSequence}` is written
through the configured session store on that same frame; a frame with
sequence 0 (or no sequence) leaves both untouched. -/
theorem c6_amended_nonzero_write_through (st : SocketState) (v : Int) (hv : v ≠ 0) :
    (handleSequence st (some v)).lastSequence = some v ∧
    (∀ sid, st.sessionId = some sid → sid ≠ "" →
      (handleSequence st (some v)).store = st.store.map fun _ => some (sid, v)) ∧
    handleSequence st none = st := by
  refine ⟨?_, ?_, by simp [handleSequence, truthySeq]⟩
  · simp [handleSequence, truthySeq, hv]
    split <;> simp
  · intro sid hsid hne
    simp [handleSequence, truthySeq, hv, hsid, truthyStr, hne]

/-- Witness for the amended C6 at sequence 7: the field and the store are
both updated. -/
theorem c6_amended_witness :
    (7 : Int) ≠ 0 ∧
    (handleSequence stSession (some 7)).lastSequence = some 7 ∧
    (handleSequence stSession (some 7)).store = some (some ("abc", 7)) := by
  have h := c6_amended_nonzero_write_through stSession 7 (by decide)
  exact ⟨by decide, h.1, by simpa [stSession] using h.2.1 "abc" rfl (by simp)⟩

/-! ## C9: handler replacement -/

/-- Lookup after `Map.set` for the key just written. -/
theorem getHandler_setHandler_same (l : List (String × Nat)) (e : String) (h : Nat) :
    getHandler (setHandler l e h) e = some h := by
  induction l with
  | nil => simp [setHandler, getHandler]
  | cons p rest ih =>
    obtain ⟨e', h'⟩ := p
    by_cases he : e' = e
    · subst he; simp [setHandler, getHandler]
    · simp [setHandler, getHandler, he, ih]

/-- Lookup after `Map.set` for any other key. -/
theorem getHandler_setHandler_other (l : List (String × Nat)) (e e' : String) (h : Nat)
    (hne : e' ≠ e) :
    getHandler (setHandler l e h) e' = getHandler l e' := by
  induction l with
  | nil => simp [setHandler, getHandler, Ne.symm hne]
  | cons p rest ih =>
    obtain ⟨e0, h0⟩ := p
    by_cases he : e0 = e
    · subst he
      simp [setHandler, getHandler, Ne.symm hne]
    · simp only [setHandler, if_neg he, getHandler]
      split <;> simp [ih]

/-- C9 counterexample: with `settings.warns` disabled (its default),
replacing the handler of an already-registered event emits NO warning —
the logs are unchanged — even though the new handler does take over. -/
theorem c9_counterexample :
    (getHandler stHandler.events "MESSAGE_CREATE").isSome = true ∧
    stHandler.logs = [] ∧
    (listen stHandler "MESSAGE_CREATE" 2).logs = [] ∧
    dispatchHandler (listen stHandler "MESSAGE_CREATE" 2) "MESSAGE_CREATE" = some 2 := by
  refine ⟨rfl, rfl, ?_, ?_⟩ <;>
    simp [listen, stHandler, stSession, dispatchHandler, getHandler, setHandler]

/-- C9 amended: at most one handler is registered per event name;
replacing the handler of an already-registered event produces the
observable warning only when `settings.warns` is enabled; in every case
the new handler — not the old one — is the one the next matching dispatch
looks up, and handlers of other event names are untouched. -/
theorem c9_amended_replacement (st : SocketState) (e : String) (hnew hold : Nat)
    (hwarns : st.settings.warns = true)
    (hhas : getHandler st.events e = some hold) :
    (listen st e hnew).logs = .warnListenerReplaced e :: st.logs ∧
    dispatchHandler (listen st e hnew) e = some hnew ∧
    (∀ e', e' ≠ e → dispatchHandler (listen st e hnew) e' = dispatchHandler st e') := by
  refine ⟨?_, ?_, fun e' hne => ?_⟩
  · simp [listen, hhas, hwarns]
  · simp [listen, dispatchHandler, getHandler_setHandler_same]
  · simp [listen, dispatchHandler, getHandler_setHandler_other _ _ _ _ hne]
    split <;> simp

/-- Witness for the amended C9: with warnings enabled, replacing the
handler logs the warning and the next dispatch sees the new handler. -/
theorem c9_amended_witness :
    stHandlerWarn.settings.warns = true ∧
    getHandler stHandlerWarn.events "MESSAGE_CREATE" = some 1 ∧
    (listen stHandlerWarn "MESSAGE_CREATE" 2).logs =
      [.warnListenerReplaced "MESSAGE_CREATE"] ∧
    dispatchHandler (listen stHandlerWarn "MESSAGE_CREATE" 2) "MESSAGE_CREATE" = some 2 := by
  have h := c9_amended_replacement stHandlerWarn "MESSAGE_CREATE" 2 1 rfl
    (by simp [stHandlerWarn, stHandler, getHandler])
  refine ⟨rfl, by simp [stHandlerWarn, stHandler, getHandler], ?_, h.2.1⟩
  have := h.1
  simpa [stHandlerWarn, stHandler, stSession] using this

/-- C10 counterexample: with a socket object present whose readyState is
CLOSED, `destroy()` awaits a close event that will never fire again, so
its promise never settles — contradicting the claim that it resolves from
every state. -/
theorem c10_counterexample :
    stClosedWs.ws = some { readyState := WsReady.closed } ∧
    destroyResult stClosedWs false = .neverSettles ∧
    DestroyResult.neverSettles ≠ .resolvedTrue ∧
    DestroyResult.neverSettles ≠ .resolvedFalse := by
  exact ⟨rfl, rfl, by simp, by simp⟩

/-- C10 amended: `destroy()` never rejects; from every state in which no
socket object is present, or the present socket's readyState is not yet
CLOSED, its promise resolves — `true` when cleanup completes or there is
nothing to clean up, `false` when an internal error is caught during
cleanup.  (When a socket object whose readyState is already CLOSED is
present, the promise never settles.) -/
theorem c10_amended_destroy_settles (st : SocketState) (cleanupThrows : Bool)
    (h : ∀ w, st.ws = some w → w.readyState ≠ WsReady.closed) :
    destroyResult st cleanupThrows =
      (if cleanupThrows then .resolvedFalse else .resolvedTrue) ∧
    (∀ s : SocketState, ∀ b : Bool, destroyResult s b ≠ .rejected) := by
  constructor
  · cases cleanupThrows with
    | true => simp [destroyResult]
    | false =>
      cases hws : st.ws with
      | none => simp [destroyResult, hws]
      | some w =>
        have := h w hws
        cases hr : w.readyState <;> simp_all [destroyResult]
  · intro s b
    unfold destroyResult
    cases b with
    | true => simp
    | false =>
      cases s.ws with
      | none => simp
      | some w =>
        obtain ⟨r⟩ := w
        cases r <;> simp

/-- Witness for the amended C10: with no socket present, destroy resolves
`true` without error and `false` when an internal error is caught. -/
theorem c10_amended_witness :
    stSession.ws = none ∧
    destroyResult stSession false = .resolvedTrue ∧
    destroyResult stSession true = .resolvedFalse := by
  have h0 := c10_amended_destroy_settles stSession false
    (by intro w hw; simp [stSession] at hw)
  have h1 := c10_amended_destroy_settles stSession true
    (by intro w hw; simp [stSession] at hw)
  exact ⟨rfl, by simpa using h0.1, by simpa using h1.1⟩

/-! ## C7: destroy versus a pending start promise -/

/-- C7 (divergence witnessed on the embedded code): before `destroy`, the
handlers installed by `start` can settle the pending start promise (an
error event rejects it); after `destroy`'s rewiring — `onclose` repointed
at destroy's own resolver, `onopen`/`onerror` nulled — NO sequence of
socket events ever settles the pending start promise, so it is never
rejected.  `destroy` does clear the heartbeat timer and drop the socket
on this path. -/
theorem c7_destroy_leaves_start_pending :
    startEverSettles startHandlers [WsEvent.errorEvt] = true ∧
    (∀ evs : List WsEvent,
      startEverSettles (destroyRewire startHandlers) evs = false) ∧
    (∀ st : SocketState,
      (destroyState st).heartbeat = false ∧ (destroyState st).ws = none) := by
  refine ⟨rfl, fun evs => ?_, fun st => ⟨rfl, rfl⟩⟩
  induction evs with
  | nil => rfl
  | cons ev rest ih =>
    cases ev <;> simpa [startEverSettles, destroyRewire, startSettledBy] using ih

/-! ## C8: settlement of the caller promise in Rest.request -/

/-- C8 (divergence witnessed on the embedded code): a non-ok response
rejects the caller promise with the structured `{status, body}` error,
but a transport-level fetch failure leaves the caller promise unsettled
forever — `reject` is never invoked on that path — instead of rejecting
it with the underlying failure. -/
theorem c8_transport_failure_hangs :
    requestSettle .transportError = .unsettled ∧
    (∀ status rem rst b,
      requestSettle (.response false status rem rst b) = .rejectedStatus status b) ∧
    (∀ rem rst b,
      requestSettle (.response true 200 rem rst b) = .resolvedData b) ∧
    CallerResult.unsettled ≠ .rejectedStatus 502 "connection reset" := by
  exact ⟨rfl, fun _ _ _ _ => rfl, fun _ _ _ => rfl, by simp⟩

/-- A list of length at most one containing `a` is exactly `[a]`. -/
theorem eq_singleton_of_mem {l : List Nat} {a : Nat} (ha : a ∈ l)
    (hl : l.length ≤ 1) : l = [a] := by
  match l with
  | [] => cases ha
  | [b] => simp_all
  | b :: c :: t =>
    exfalso
    simp only [List.length_cons] at hl
    omega

/-- The invariant holds initially. -/
theorem init_inv : Inv initSched := by
  refine ⟨rfl, ?_, ?_, ?_, ?_⟩ <;>
    simp [bkt, initSched, freshBucket, flightCount]

/-- `runBucket` re-establishes the invariant whenever it is invoked with
no other activity pending, a consistent order ledger, and an idle bucket
only when the gate is open. -/
theorem runBucket_inv (s : SchedState) (b : BucketInfo)
    (hb : s.bucket = some b)
    (hf : s.inFlight = []) (hp : s.pendingFin = []) (ht : s.timers = [])
    (he : s.enqueued = s.started ++ b.queue)
    (hr : b.isRunning = false → 0 < b.remaining ∨ b.resetAt ≤ s.now) :
    Inv (runBucket s) := by
  unfold runBucket
  rw [hb]
  dsimp only
  by_cases hg : b.remaining ≤ 0 ∧ s.now < b.resetAt
  · rw [if_pos hg]
    have hrun : b.isRunning = true := by
      cases hR : b.isRunning
      · rcases hr hR with h | h
        · exact absurd hg.1 (not_le.mpr h)
        · omega
      · rfl
    refine ⟨?_, ?_, ?_, ?_, ?_⟩ <;>
      simp [Inv, bkt, flightCount, hb, hf, hp, ht, he, hrun]
  · rw [if_neg hg]
    rcases not_and_or.mp hg with hgate | hgate
    · cases hq : b.queue with
      | nil =>
        refine ⟨?_, ?_, ?_, ?_, ?_⟩ <;>
          simp [Inv, bkt, flightCount, hf, hp, ht, he, hq]
        exact Or.inl (lt_of_not_le hgate)
      | cons j rest =>
        refine ⟨?_, ?_, ?_, ?_, ?_⟩ <;>
          simp [Inv, bkt, flightCount, hf, hp, ht, he, hq]
    · cases hq : b.queue with
      | nil =>
        refine ⟨?_, ?_, ?_, ?_, ?_⟩ <;>
          simp [Inv, bkt, flightCount, hf, hp, ht, he, hq]
        exact Or.inr (le_of_not_lt hgate)
      | cons j rest =>
        refine ⟨?_, ?_, ?_, ?_, ?_⟩ <;>
          simp [Inv, bkt, flightCount, hf, hp, ht, he, hq]

/-- Every scheduler step preserves the invariant. -/
theorem step_inv {s s' : SchedState} (hs : Inv s) (hstep : Step s s') : Inv s' := by
  obtain ⟨ha, hcnt, hiff, hgate, hqe⟩ := hs
  cases hstep with
  | enqueue =>
    unfold queueRequest
    cases hbk : s.bucket with
    | none =>
      have hrun : (bkt s).isRunning = false := by simp [bkt, hbk, freshBucket]
      have hcz : flightCount s = 0 := by
        by_contra hnz
        have := hiff.mpr hnz
        rw [hrun] at this
        cases this
      have h3 : s.inFlight.length = 0 ∧ s.pendingFin.length = 0 ∧
          s.timers.length = 0 := by
        simp only [flightCount] at hcz
        omega
      have hf : s.inFlight = [] := List.length_eq_zero.mp h3.1
      have hp : s.pendingFin = [] := List.length_eq_zero.mp h3.2.1
      have ht : s.timers = [] := List.length_eq_zero.mp h3.2.2
      have ha' : s.enqueued = s.started := by
        simpa [bkt, hbk, freshBucket] using ha
      dsimp only [Option.getD, freshBucket]
      rw [if_neg Bool.false_ne_true]
      refine runBucket_inv _
        { resetAt := 0, remaining := 1, queue := [s.nextId], isRunning := false }
        rfl hf hp ht ?_ ?_
      · simp [ha']
      · intro _
        exact Or.inl (by norm_num)
    | some b =>
      have haB : s.enqueued = s.started ++ b.queue := by simpa [bkt, hbk] using ha
      dsimp only [Option.getD]
      cases hR : b.isRunning with
      | true =>
        rw [if_pos rfl]
        have hne := hiff.mp (by simp [bkt, hbk, hR])
        refine ⟨?_, ?_, ?_, ?_, ?_⟩
        · simp [bkt, haB]
        · simpa [flightCount] using hcnt
        · simpa [bkt, flightCount] using hne
        · intro h
          simp [bkt] at h
        · intro h
          simp [bkt] at h
      | false =>
        rw [if_neg Bool.false_ne_true]
        have hcz : flightCount s = 0 := by
          by_contra hnz
          have := hiff.mpr hnz
          rw [show (bkt s).isRunning = false by simp [bkt, hbk, hR]] at this
          cases this
        have h3 : s.inFlight.length = 0 ∧ s.pendingFin.length = 0 ∧
            s.timers.length = 0 := by
          simp only [flightCount] at hcz
          omega
        have hf : s.inFlight = [] := List.length_eq_zero.mp h3.1
        have hp : s.pendingFin = [] := List.length_eq_zero.mp h3.2.1
        have ht : s.timers = [] := List.length_eq_zero.mp h3.2.2
        have hq0 : b.queue = [] := by
          have := hqe (by simp [bkt, hbk, hR])
          simpa [bkt, hbk] using this
        have ha' : s.enqueued = s.started := by
          simpa [hq0] using haB
        refine runBucket_inv _
          { resetAt := b.resetAt, remaining := b.remaining,
            queue := b.queue ++ [s.nextId], isRunning := false }
          rfl hf hp ht ?_ ?_
        · simp [ha', hq0]
        · intro _
          have := hgate (by simp [bkt, hbk, hR])
          simpa [bkt, hbk] using this
  | respond j rem rst hj =>
    have hlen := List.length_pos_of_mem hj
    have h3 : s.inFlight.length = 1 ∧ s.pendingFin.length = 0 ∧
        s.timers.length = 0 := by
      simp only [flightCount] at hcnt
      omega
    have hf1 : s.inFlight = [j] := eq_singleton_of_mem hj (by omega)
    have hp : s.pendingFin = [] := List.length_eq_zero.mp h3.2.1
    have ht : s.timers = [] := List.length_eq_zero.mp h3.2.2
    have hne : flightCount s ≠ 0 := by simp [flightCount, hf1]
    cases hbk : s.bucket with
    | none =>
      exfalso
      have := hiff.mpr hne
      rw [show (bkt s).isRunning = false by simp [bkt, hbk, freshBucket]] at this
      cases this
    | some b =>
      have hR : b.isRunning = true := by
        have := hiff.mpr hne
        simpa [bkt, hbk] using this
      unfold respondJob
      rw [show ({ s with inFlight := s.inFlight.erase j,
                         pendingFin := s.pendingFin ++ [j] } : SchedState).bucket
            = some b from hbk]
      dsimp only
      refine ⟨?_, ?_, ?_, ?_, ?_⟩
      · simpa [bkt] using by
          simpa [bkt, hbk] using ha
      · simp [flightCount, hf1, hp, ht]
      · simp [bkt, hR, flightCount, hf1, hp, ht]
      · intro h
        simp [bkt, hR] at h
      · intro h
        simp [bkt, hR] at h
  | finalize j hj =>
    have hlen := List.length_pos_of_mem hj
    have h3 : s.inFlight.length = 0 ∧ s.pendingFin.length = 1 ∧
        s.timers.length = 0 := by
      simp only [flightCount] at hcnt
      omega
    have hp1 : s.pendingFin = [j] := eq_singleton_of_mem hj (by omega)
    have hf : s.inFlight = [] := List.length_eq_zero.mp h3.1
    have ht : s.timers = [] := List.length_eq_zero.mp h3.2.2
    have hne : flightCount s ≠ 0 := by simp [flightCount, hp1]
    cases hbk : s.bucket with
    | none =>
      exfalso
      have := hiff.mpr hne
      rw [show (bkt s).isRunning = false by simp [bkt, hbk, freshBucket]] at this
      cases this
    | some b =>
      have hR : b.isRunning = true := by
        have := hiff.mpr hne
        simpa [bkt, hbk] using this
      unfold finalizeJob
      refine runBucket_inv _ b (by simpa using hbk) hf ?_ ?_ ?_ ?_
      · rw [hp1]
        simp
      · exact ht
      · simpa [bkt, hbk] using ha
      · intro h
        rw [hR] at h
        cases h
  | timer t htm hle =>
    have hlen := List.length_pos_of_mem htm
    have h3 : s.inFlight.length = 0 ∧ s.pendingFin.length = 0 ∧
        s.timers.length = 1 := by
      simp only [flightCount] at hcnt
      omega
    have ht1 : s.timers = [t] := eq_singleton_of_mem htm (by omega)
    have hf : s.inFlight = [] := List.length_eq_zero.mp h3.1
    have hp : s.pendingFin = [] := List.length_eq_zero.mp h3.2.1
    have hne : flightCount s ≠ 0 := by simp [flightCount, ht1]
    cases hbk : s.bucket with
    | none =>
      exfalso
      have := hiff.mpr hne
      rw [show (bkt s).isRunning = false by simp [bkt, hbk, freshBucket]] at this
      cases this
    | some b =>
      have hR : b.isRunning = true := by
        have := hiff.mpr hne
        simpa [bkt, hbk] using this
      unfold fireTimer
      refine runBucket_inv _ b (by simpa using hbk) hf hp ?_ ?_ ?_
      · rw [ht1]
        simp
      · simpa [bkt, hbk] using ha
      · intro h
        rw [hR] at h
        cases h
  | tick d =>
    refine ⟨?_, ?_, ?_, ?_, ?_⟩
    · simpa [tickBy, bkt] using by simpa [bkt] using ha
    · simpa [tickBy, flightCount] using hcnt
    · simpa [tickBy, bkt, flightCount] using hiff
    · intro h
      rcases hgate (by simpa [tickBy, bkt] using h) with h1 | h1
      · exact Or.inl (by simpa [tickBy, bkt] using h1)
      · refine Or.inr ?_
        simp only [tickBy, bkt] at h1 ⊢
        omega
    · intro h
      simpa [tickBy, bkt] using hqe (by simpa [tickBy, bkt] using h)

/-- The invariant propagates along any interleaving. -/
theorem trail_inv {s s' : SchedState} (h : Trail s s') (hs : Inv s) : Inv s' := by
  induction h with
  | refl => exact hs
  | snoc _ hstep ih => exact step_inv ih hstep

/-- C1: in every state of a bucket reachable by any interleaving of
enqueue calls, fetch completions, `.finally` continuations, deferred-retry
timer firings and time passage, at most one job of the bucket is
executing or settling at a time (so execution windows never overlap), and
the order in which jobs have started executing is exactly the order in
which they were enqueued (the enqueue ledger is the start ledger followed
by the jobs still waiting in the queue): strict FIFO. -/
theorem c1_single_flight_fifo (s : SchedState) (h : Reach s) :
    s.inFlight.length + s.pendingFin.length ≤ 1 ∧
    ∃ waiting, s.enqueued = s.started ++ waiting := by
  have hi := trail_inv h init_inv
  obtain ⟨ha, hcnt, _, _, _⟩ := hi
  refine ⟨?_, ⟨(bkt s).queue, ha⟩⟩
  simp only [flightCount] at hcnt
  omega

/-- Witness for C1: the state reached by two back-to-back enqueues (job 0
launched, job 1 queued) has one activity and a FIFO ledger. -/
theorem c1_single_flight_fifo_witness :
    (queueRequest (queueRequest initSched)).inFlight.length +
      (queueRequest (queueRequest initSched)).pendingFin.length ≤ 1 ∧
    ∃ waiting, (queueRequest (queueRequest initSched)).enqueued =
      (queueRequest (queueRequest initSched)).started ++ waiting :=
  c1_single_flight_fifo (queueRequest (queueRequest initSched))
    (Trail.snoc (Trail.snoc (Trail.refl initSched) (Step.enqueue initSched))
      (Step.enqueue (queueRequest initSched)))

/-- `runBucket` either starts no job — leaving the start ledger, the
in-flight set, the clock and the bucket's quota fields untouched — or
pops exactly one job, which it may only do when the gate
`remaining > 0 ∨ resetAt ≤ now` is open. -/
theorem runBucket_cases (s : SchedState) (b : BucketInfo) (hb : s.bucket = some b) :
    ((runBucket s).started = s.started ∧
     (∃ q r, (runBucket s).bucket =
        some { resetAt := b.resetAt, remaining := b.remaining,
               queue := q, isRunning := r }) ∧
     (runBucket s).inFlight = s.inFlight ∧
     (runBucket s).now = s.now) ∨
    (∃ j, (runBucket s).started = s.started ++ [j] ∧
      (0 < b.remaining ∨ b.resetAt ≤ s.now)) := by
  unfold runBucket
  rw [hb]
  dsimp only
  by_cases hg : b.remaining ≤ 0 ∧ s.now < b.resetAt
  · rw [if_pos hg]
    exact Or.inl ⟨rfl, ⟨b.queue, b.isRunning, rfl⟩, rfl, rfl⟩
  · rw [if_neg hg]
    have hgt : 0 < b.remaining ∨ b.resetAt ≤ s.now := by
      rcases not_and_or.mp hg with h | h
      · exact Or.inl (lt_of_not_le h)
      · exact Or.inr (le_of_not_lt h)
    cases hq : b.queue with
    | nil => exact Or.inl ⟨rfl, ⟨b.queue, false, by rw [hq]⟩, rfl, rfl⟩
    | cons j rest => exact Or.inr ⟨j, rfl, hgt⟩

/-- Same case split for `queueRequest` on a state whose bucket exists. -/
theorem queueRequest_cases (s : SchedState) (b : BucketInfo) (hb : s.bucket = some b) :
    ((queueRequest s).started = s.started ∧
     (∃ q r, (queueRequest s).bucket =
        some { resetAt := b.resetAt, remaining := b.remaining,
               queue := q, isRunning := r }) ∧
     (queueRequest s).inFlight = s.inFlight ∧
     (queueRequest s).now = s.now) ∨
    (∃ j, (queueRequest s).started = s.started ++ [j] ∧
      (0 < b.remaining ∨ b.resetAt ≤ s.now)) := by
  unfold queueRequest
  rw [hb]
  dsimp only [Option.getD]
  cases hR : b.isRunning with
  | true =>
    rw [if_pos rfl]
    exact Or.inl ⟨rfl, ⟨b.queue ++ [s.nextId], true, rfl⟩, rfl, rfl⟩
  | false =>
    rw [if_neg Bool.false_ne_true]
    rcases runBucket_cases
        { s with bucket := some { resetAt := b.resetAt, remaining := b.remaining,
                                  queue := b.queue ++ [s.nextId], isRunning := false },
                 enqueued := s.enqueued ++ [s.nextId], nextId := s.nextId + 1 }
        { resetAt := b.resetAt, remaining := b.remaining,
          queue := b.queue ++ [s.nextId], isRunning := false }
        rfl with ⟨h1, h2, h3, h4⟩ | ⟨j, hj, hgt⟩
    · exact Or.inl ⟨h1, h2, h3, h4⟩
    · exact Or.inr ⟨j, hj, hgt⟩

/-- The start ledger only ever grows, by at most one job per step. -/
theorem runBucket_started_mono (s : SchedState) :
    ∃ t, (runBucket s).started = s.started ++ t := by
  unfold runBucket
  cases hb : s.bucket with
  | none => exact ⟨[], by simp⟩
  | some b =>
    dsimp only
    by_cases hg : b.remaining ≤ 0 ∧ s.now < b.resetAt
    · rw [if_pos hg]
      exact ⟨[], by simp⟩
    · rw [if_neg hg]
      cases hq : b.queue with
      | nil => exact ⟨[], by simp⟩
      | cons j rest => exact ⟨[j], rfl⟩

/-- The start ledger only grows across any single step. -/
theorem step_started_mono {a a' : SchedState} (h : Step a a') :
    ∃ t, a'.started = a.started ++ t := by
  cases h with
  | enqueue =>
    unfold queueRequest
    dsimp only
    split
    · exact ⟨[], by simp⟩
    · obtain ⟨t, ht⟩ := runBucket_started_mono _
      exact ⟨t, ht⟩
  | respond j rem rst hj =>
    refine ⟨[], ?_⟩
    unfold respondJob
    dsimp only
    split <;> simp
  | finalize j hj =>
    obtain ⟨t, ht⟩ := runBucket_started_mono
      { a with pendingFin := a.pendingFin.erase j }
    exact ⟨t, ht⟩
  | timer t htm hle =>
    obtain ⟨t', ht'⟩ := runBucket_started_mono
      { a with timers := a.timers.erase t }
    exact ⟨t', ht'⟩
  | tick d => exact ⟨[], by simp [tickBy]⟩

/-- The start ledger only grows along any interleaving. -/
theorem trail_started_mono {a a' : SchedState} (h : Trail a a') :
    ∃ t, a'.started = a.started ++ t := by
  induction h with
  | refl => exact ⟨[], by simp⟩
  | snoc h hstep ih =>
    obtain ⟨t1, ht1⟩ := ih
    obtain ⟨t2, ht2⟩ := step_started_mono hstep
    exact ⟨t1 ++ t2, by rw [ht2, ht1, List.append_assoc]⟩

/-- A step that starts a job does so only with the bucket's gate open:
`remaining > 0` or `now ≥ resetAt` at the moment of the step. -/
theorem pop_gate {u v : SchedState} (b : BucketInfo) (hb : u.bucket = some b)
    (hstep : Step u v) (hpop : v.started ≠ u.started) :
    0 < b.remaining ∨ b.resetAt ≤ u.now := by
  cases hstep with
  | enqueue =>
    rcases queueRequest_cases u b hb with ⟨h1, _, _, _⟩ | ⟨j, hj, hgt⟩
    · exact absurd h1 hpop
    · exact hgt
  | respond j rem rst hj =>
    exfalso
    apply hpop
    unfold respondJob
    dsimp only
    split <;> simp
  | finalize j hj =>
    rcases runBucket_cases { u with pendingFin := u.pendingFin.erase j } b hb
      with ⟨h1, _, _, _⟩ | ⟨j', hj', hgt⟩
    · exact absurd h1 hpop
    · exact hgt
  | timer t htm hle =>
    rcases runBucket_cases { u with timers := u.timers.erase t } b hb
      with ⟨h1, _, _, _⟩ | ⟨j', hj', hgt⟩
    · exact absurd h1 hpop
    · exact hgt
  | tick d => exact absurd rfl hpop

/-- A step that starts no job, taken from a state with no job in flight,
keeps the bucket's quota fields, the empty in-flight set, and never moves
the clock backwards. -/
theorem step_frozen {u v : SchedState} (b : BucketInfo)
    (hb : ∃ q r, u.bucket =
      some { resetAt := b.resetAt, remaining := b.remaining,
             queue := q, isRunning := r })
    (hf : u.inFlight = [])
    (hstep : Step u v) (hst : v.started = u.started) :
    (∃ q r, v.bucket =
      some { resetAt := b.resetAt, remaining := b.remaining,
             queue := q, isRunning := r }) ∧
    v.inFlight = [] ∧ u.now ≤ v.now := by
  obtain ⟨q, r, hbu⟩ := hb
  cases hstep with
  | enqueue =>
    rcases queueRequest_cases u _ hbu with ⟨h1, h2, h3, h4⟩ | ⟨j, hj, _⟩
    · exact ⟨h2, by rw [h3, hf], le_of_eq h4.symm⟩
    · exfalso
      rw [hj] at hst
      have hl := congrArg List.length hst
      simp only [List.length_append, List.length_cons, List.length_nil] at hl
      omega
  | respond j rem rst hj =>
    rw [hf] at hj
    cases hj
  | finalize j hj =>
    rcases runBucket_cases { u with pendingFin := u.pendingFin.erase j } _ hbu
      with ⟨h1, h2, h3, h4⟩ | ⟨j', hj', _⟩
    · exact ⟨h2, h3.trans hf, le_of_eq h4.symm⟩
    · exfalso
      rw [show (finalizeJob u j).started =
            (runBucket { u with pendingFin := u.pendingFin.erase j }).started
          from rfl, hj'] at hst
      have hl := congrArg List.length hst
      simp only [List.length_append, List.length_cons, List.length_nil] at hl
      omega
  | timer t htm hle =>
    rcases runBucket_cases { u with timers := u.timers.erase t } _ hbu
      with ⟨h1, h2, h3, h4⟩ | ⟨j', hj', _⟩
    · exact ⟨h2, h3.trans hf, le_of_eq h4.symm⟩
    · exfalso
      rw [show (fireTimer u t).started =
            (runBucket { u with timers := u.timers.erase t }).started
          from rfl, hj'] at hst
      have hl := congrArg List.length hst
      simp only [List.length_append, List.length_cons, List.length_nil] at hl
      omega
  | tick d => exact ⟨⟨q, r, hbu⟩, hf, Nat.le_add_right _ _⟩

/-- Along any interleaving from a state with no job in flight during
which no job starts, the bucket's quota fields are frozen, no job enters
flight, and time only advances. -/
theorem trail_frozen {s u : SchedState} (b : BucketInfo)
    (hb : s.bucket = some b) (hf : s.inFlight = [])
    (htr : Trail s u) :
    u.started = s.started →
    (∃ q r, u.bucket =
      some { resetAt := b.resetAt, remaining := b.remaining,
             queue := q, isRunning := r }) ∧
    u.inFlight = [] ∧ s.now ≤ u.now := by
  induction htr with
  | refl =>
    intro _
    exact ⟨⟨b.queue, b.isRunning, by rw [hb]⟩, hf, le_refl _⟩
  | snoc h hstep ih =>
    intro hst
    obtain ⟨t1, ht1⟩ := trail_started_mono h
    obtain ⟨t2, ht2⟩ := step_started_mono hstep
    have hl : t1.length = 0 ∧ t2.length = 0 := by
      have hx := hst
      rw [ht2, ht1] at hx
      have hlen := congrArg List.length hx
      simp only [List.length_append] at hlen
      omega
    rw [List.length_eq_zero.mp hl.1, List.append_nil] at ht1
    rw [List.length_eq_zero.mp hl.2, List.append_nil] at ht2
    obtain ⟨hbq, hf', hnow⟩ := ih ht1
    have hres := step_frozen b hbq hf' hstep ht2
    exact ⟨hres.1, hres.2.1, le_trans hnow hres.2.2⟩

/-- C2: (i) a step starts a job only when the bucket's gate is open —
`remaining > 0` or `now ≥ resetAt` at that step; (ii) when the bucket
reports `remaining ≤ 0` with `resetAt` still in the future, the job's
`.finally` starts nothing and instead schedules a deferred retry timer at
exactly `resetAt`; (iii) hence from any state whose bucket reports
`remaining ≤ 0` and has no job in flight, along any interleaving in which
no job has started yet, the first step that does start a job runs at a
time `≥` the bucket's `resetAt` recorded at the response. -/
theorem c2_rate_gate :
    (∀ (u v : SchedState) (b : BucketInfo), u.bucket = some b → Step u v →
        v.started ≠ u.started → 0 < b.remaining ∨ b.resetAt ≤ u.now) ∧
    (∀ (s : SchedState) (b : BucketInfo) (j : Nat), s.bucket = some b →
        b.remaining ≤ 0 → s.now < b.resetAt → j ∈ s.pendingFin →
        (finalizeJob s j).timers = s.timers ++ [b.resetAt] ∧
        (finalizeJob s j).started = s.started) ∧
    (∀ (s u v : SchedState) (b : BucketInfo), s.bucket = some b →
        b.remaining ≤ 0 → s.inFlight = [] → Trail s u → u.started = s.started →
        Step u v → v.started ≠ u.started → b.resetAt ≤ u.now) := by
  refine ⟨?_, ?_, ?_⟩
  · intro u v b hb hstep hpop
    exact pop_gate b hb hstep hpop
  · intro s b j hb hrem hnow hj
    refine ⟨?_, ?_⟩ <;>
    · unfold finalizeJob runBucket
      dsimp only
      rw [hb]
      dsimp only
      rw [if_pos ⟨hrem, hnow⟩]
  · intro s u v b hb hrem hf htr hst hstep hpop
    obtain ⟨⟨q, r, hbu⟩, hfu, hnow⟩ := trail_frozen b hb hf htr hst
    rcases pop_gate _ hbu hstep hpop with h1 | h1
    · exact absurd h1 (not_lt.mpr hrem)
    · exact h1

/-- Witness for C2: after the response `remaining = 0, resetAt = 5000`
settles job 9 at time 0, the `.finally` defers; once the clock reaches
6000 the timer fires and job 7 starts — at a time past `resetAt`, as the
theorem's third part concludes. -/
theorem c2_rate_gate_witness :
    sGate.bucket = some bktGate ∧
    bktGate.remaining ≤ 0 ∧
    sGate.inFlight = [] ∧
    (tickBy (finalizeJob sGate 9) 6000).started = sGate.started ∧
    (fireTimer (tickBy (finalizeJob sGate 9) 6000) 5000).started ≠
      (tickBy (finalizeJob sGate 9) 6000).started ∧
    bktGate.resetAt ≤ (tickBy (finalizeJob sGate 9) 6000).now := by
  refine ⟨rfl, by decide, rfl, by decide, by decide, ?_⟩
  exact c2_rate_gate.2.2 sGate (tickBy (finalizeJob sGate 9) 6000)
    (fireTimer (tickBy (finalizeJob sGate 9) 6000) 5000) bktGate rfl (by decide) rfl
    (Trail.snoc (Trail.snoc (Trail.refl sGate) (Step.finalize sGate 9 (by decide)))
      (Step.tick (finalizeJob sGate 9) 6000))
    (by decide)
    (Step.timer (tickBy (finalizeJob sGate 9) 6000) 5000 (by decide) (by decide))
    (by decide)

end Bighorn
